import Mathlib

/-!
Verification of the reachability polling engine of `use-reliable-connectivity`
(`src/dist/index.js`).

The development has two parts:

* a model of the probe `fetchReachabilityUrl` (lines 13–35): a fresh
  `AbortController` whose `abort` is scheduled after `timeout` milliseconds,
  a `fetch` of the reachability URL, a status check against
  `expectedResponseStatus`, a `catch` clause collapsing every thrown value to
  `false` (logging `e.message` only when `e instanceof Error`), and a
  `finally` clause clearing the abort timer;

* a model of the hook's timer engine: `setReachabilityInterval` (lines 39–41),
  `clearReachabilityInterval` (lines 45–50), `_backgroundHandler`
  (lines 54–57) and the two effects (lines 59–66), as a state machine over an
  explicit set of live interval timers.
-/

deriving instance DecidableEq for Except

namespace URC

/-- A JavaScript value as discriminated by the `catch` clause (line 27):
either an `Error` instance (carrying its `.message`) or a non-`Error` value
such as a plain string. -/
inductive JsValue where
  | errorObj (message : String)
  | str (s : String)
deriving DecidableEq, Repr

/-- Behavior of one underlying network request, independent of the probe's
deadline: it resolves with a status after `elapsedMs`, rejects with a
transport error (an `Error` instance with the given message) after
`elapsedMs`, or never settles. -/
inductive RequestBehavior where
  | completes (elapsedMs : Nat) (status : Nat)
  | fails (elapsedMs : Nat) (message : String)
  | hangs
deriving DecidableEq, Repr

/-- Whether the request settles on its own strictly before the abort timer
scheduled at line 15 fires at `timeout` milliseconds. -/
def settlesBefore (timeout : Nat) : RequestBehavior → Bool
  | .completes e _ => decide (e < timeout)
  | .fails e _ => decide (e < timeout)
  | .hangs => false

/-- The value the fetch promise is rejected with when the probe's abort timer
fires: `abortController.abort("Reachability timed out.")` (line 15) sets the
signal's abort reason to that plain string, and per the fetch specification an
aborted fetch rejects with the signal's abort reason. A string is not an
`Error` instance. -/
def abortReason : JsValue := .str "Reachability timed out."

/-- Outcome of `await fetch(reachabilityUrl, { signal, cache })` (lines
17–20): the response status if the request resolves before the abort
deadline, otherwise the rejection value — `abortReason` when the abort timer
fired first, or a transport `Error` when the request failed on its own. -/
def fetchResult (timeout : Nat) : RequestBehavior → Except JsValue Nat
  | .completes e status =>
      if e < timeout then .ok status else .error abortReason
  | .fails e message =>
      if e < timeout then .error (.errorObj message) else .error abortReason
  | .hangs => .error abortReason

/-- The `try` block (lines 16–25): awaits the fetch, then throws an `Error`
when the response status is not in `expectedResponseStatus` (lines 21–23),
else returns `true` (line 24). -/
def tryBlock (expectedResponseStatus : List Nat) (timeout : Nat)
    (b : RequestBehavior) : Except JsValue Bool :=
  match fetchResult timeout b with
  | .error e => .error e
  | .ok status =>
      if expectedResponseStatus.contains status then .ok true
      else .error
        (.errorObj s!"Reachability returned status {status}, that is not expected.")

/-- What the `catch` clause (lines 26–31) writes with `console.error`:
`e.message`, but only when `e instanceof Error` (line 27). -/
def catchLog : JsValue → List String
  | .errorObj m => [m]
  | .str _ => []

/-- Observable outcome of one `fetchReachabilityUrl` invocation: the settled
value of the async function (an `Except`, so that "never rejects" is a
statement and not a typing artifact), the `console.error` output, whether the
abort timer fired (cancelling the in-flight request), and whether the
`finally` clause cleared the abort timer. -/
structure ProbeTrace where
  result : Except JsValue Bool
  log : List String
  aborted : Bool
  timeoutCleared : Bool
deriving DecidableEq, Repr

/-- `fetchReachabilityUrl` (lines 13–35). Each invocation creates its own
`AbortController` and abort timer (lines 14–15), so the trace is a function
of this invocation's inputs alone; the `catch` clause maps every thrown value
to a resolution with `false` (line 30); the `finally` clause (lines 32–34)
runs on every path, clearing the abort timer. -/
def runProbe (expectedResponseStatus : List Nat) (timeout : Nat)
    (b : RequestBehavior) : ProbeTrace :=
  let aborted := !settlesBefore timeout b
  match tryBlock expectedResponseStatus timeout b with
  | .ok v => { result := .ok v, log := [], aborted := aborted, timeoutCleared := true }
  | .error e =>
      { result := .ok false, log := catchLog e, aborted := aborted,
        timeoutCleared := true }

/-- The boolean `fetchReachabilityUrl` resolves with. -/
def probeBool (expectedResponseStatus : List Nat) (timeout : Nat)
    (b : RequestBehavior) : Bool :=
  ((runProbe expectedResponseStatus timeout b).result).toOption.getD false

/-- The status code of a response that completed before the deadline, if the
request produced one. -/
def completedStatus (timeout : Nat) : RequestBehavior → Option Nat
  | .completes e status => if e < timeout then some status else none
  | .fails _ _ => none
  | .hangs => none

/-! ## The timer engine -/

/-- A live interval timer, as created by `setInterval` at line 40: its opaque
handle (`id`), its period in milliseconds, and the instant at which it was
armed. -/
structure Timer where
  id : Nat
  period : Nat
  armedAt : Nat
deriving DecidableEq, Repr

/-- The options object accepted by `useReliableConnectivity` (line 3); every
field is optional. `backgroundSetup` records only whether the optional adapter
function was provided, which is all the engine model depends on. -/
structure ConnectionConfig where
  initialConnectionState : Option Bool := none
  timeout : Option Nat := none
  reachabilityUrl : Option String := none
  expectedResponseStatus : Option (List Nat) := none
  interval : Option Nat := none
  backgroundInterval : Option Nat := none
  backgroundSetup : Bool := false
deriving DecidableEq, Repr

/-- The configuration after the destructuring defaults of line 3 are applied. -/
structure ResolvedConfig where
  initialConnectionState : Bool
  timeout : Nat
  reachabilityUrl : String
  expectedResponseStatus : List Nat
  interval : Nat
  backgroundInterval : Nat
  backgroundSetup : Bool
deriving DecidableEq, Repr

/-- The destructuring defaults of line 3. -/
def resolveConfig (c : ConnectionConfig) : ResolvedConfig where
  initialConnectionState := c.initialConnectionState.getD true
  timeout := c.timeout.getD 3000
  reachabilityUrl := c.reachabilityUrl.getD "https://clients3.google.com/generate_204"
  expectedResponseStatus := c.expectedResponseStatus.getD [204]
  interval := c.interval.getD 1000
  backgroundInterval := c.backgroundInterval.getD 10000
  backgroundSetup := c.backgroundSetup

/-- State of one hook instance: its resolved configuration, the current time,
the set of live interval timers (to state the single-timer invariant), the
content of `reachabilityIntervalRef` (line 5; `none` models `null`), a fresh
handle counter, whether the `backgroundSetup` registration is live (effect at
lines 59–62), and the `isConnected` state (line 7). -/
structure EngineState where
  cfg : ResolvedConfig
  now : Nat
  activeTimers : List Timer
  refCurrent : Option Nat
  nextId : Nat
  subscribed : Bool
  isConnected : Bool
deriving DecidableEq, Repr

/-- `setReachabilityInterval` (lines 39–41): calls `setInterval`, which
creates a fresh live timer with the given period, and stores its handle in
`reachabilityIntervalRef.current` — overwriting, not clearing, whatever was
there. -/
def setReachabilityInterval (s : EngineState) (interval : Nat) : EngineState :=
  { s with
    activeTimers := s.activeTimers ++ [⟨s.nextId, interval, s.now⟩]
    refCurrent := some s.nextId
    nextId := s.nextId + 1 }

/-- `clearReachabilityInterval` (lines 45–50): if the ref holds a handle,
`clearInterval` kills that timer and the ref is reset to `null`; otherwise
nothing happens. -/
def clearReachabilityInterval (s : EngineState) : EngineState :=
  match s.refCurrent with
  | some id =>
      { s with
        activeTimers := s.activeTimers.filter (fun t => t.id != id)
        refCurrent := none }
  | none => s

/-- `_backgroundHandler` (lines 54–57): clears the current interval, then
re-arms with `backgroundInterval` when the app moved to the background and
with `interval` otherwise. Runs synchronously (no `await`), so it is one
atomic step of the single-threaded event loop. -/
def backgroundHandler (s : EngineState) (isOnBackground : Bool) : EngineState :=
  setReachabilityInterval (clearReachabilityInterval s)
    (if isOnBackground then s.cfg.backgroundInterval else s.cfg.interval)

/-- Events the running hook instance reacts to: time passing, an interval
tick whose probe resolved with the given boolean (line 40 then
`setIsConnected`), a background/foreground transition delivered by the
`backgroundSetup` adapter to `_backgroundHandler`, and a re-render with a new
`interval` option, which re-runs the effect at lines 63–66 (its cleanup
clears the old timer, then the effect arms a new one). -/
inductive Event where
  | elapse (ms : Nat)
  | tick (probeOutcome : Bool)
  | modeChange (isOnBackground : Bool)
  | reconfigure (newInterval : Nat)
deriving DecidableEq, Repr

/-- One event step of the running engine. A `modeChange` reaches
`_backgroundHandler` only when the adapter registration is live (the effect
at lines 59–62 only registers the handler when `backgroundSetup` was
provided); otherwise the event has no handler and changes nothing. -/
def step (s : EngineState) : Event → EngineState
  | .elapse ms => { s with now := s.now + ms }
  | .tick r => { s with isConnected := r }
  | .modeChange b => if s.subscribed then backgroundHandler s b else s
  | .reconfigure p =>
      let s' := { s with cfg := { s.cfg with interval := p } }
      setReachabilityInterval (clearReachabilityInterval s') p

/-- Run the engine through a sequence of events. -/
def run (s : EngineState) (events : List Event) : EngineState :=
  events.foldl step s

/-- Mounting the hook: `useState(initialConnectionState)` seeds `isConnected`
(line 7), the effect at lines 59–62 registers `_backgroundHandler` with the
adapter when one is provided, and the effect at lines 63–66 arms the interval
timer with the foreground `interval`. -/
def mount (c : ConnectionConfig) : EngineState :=
  let cfg := resolveConfig c
  setReachabilityInterval
    { cfg := cfg, now := 0, activeTimers := [], refCurrent := none, nextId := 0
      subscribed := cfg.backgroundSetup, isConnected := cfg.initialConnectionState }
    cfg.interval

/-- Unmounting the hook: the cleanup of the effect at lines 63–66 runs
`clearReachabilityInterval`, and the cleanup of the effect at lines 59–62
calls the adapter's teardown, ending the registration. -/
def unmount (s : EngineState) : EngineState :=
  let s1 := clearReachabilityInterval s
  { s1 with subscribed := false }

/-- The engine is running with exactly one live timer, whose handle is the one
stored in `reachabilityIntervalRef`. -/
def running (s : EngineState) : Prop :=
  ∃ t, s.activeTimers = [t] ∧ s.refCurrent = some t.id

/-- Every live timer of the engine runs at the (current) foreground
`interval`. -/
def foregroundOnly (s : EngineState) : Prop :=
  ∀ t ∈ s.activeTimers, t.period = s.cfg.interval

/-- Firing schedule of the recurring timer created by `setInterval` at
line 40: the callback runs at `armedAt + (k+1) * period` for `k = 0, 1, 2, …`
— the first tick a full period after arming, each next tick one period after
the previous. -/
def intervalFireTime (t : Timer) (k : Nat) : Nat :=
  t.armedAt + (k + 1) * t.period

example : probeBool [204] 3000 (.completes 120 204) = true := by decide
example : probeBool [204] 3000 (.completes 120 200) = false := by decide
example : probeBool [204] 3000 (.completes 5000 204) = false := by decide
example : probeBool [204] 3000 (.fails 10 "Network request failed") = false := by decide
example : probeBool [204] 3000 .hangs = false := by decide
example : (runProbe [204] 3000 .hangs).log = [] := by decide
example : (runProbe [204] 3000 (.fails 10 "boom")).log = ["boom"] := by decide

/-! ## Helper lemmas about the engine primitives -/

lemma set_activeTimers (s : EngineState) (p : Nat) :
    (setReachabilityInterval s p).activeTimers
      = s.activeTimers ++ [⟨s.nextId, p, s.now⟩] := rfl

lemma set_refCurrent (s : EngineState) (p : Nat) :
    (setReachabilityInterval s p).refCurrent = some s.nextId := rfl

@[simp] lemma set_cfg (s : EngineState) (p : Nat) :
    (setReachabilityInterval s p).cfg = s.cfg := rfl

@[simp] lemma set_subscribed (s : EngineState) (p : Nat) :
    (setReachabilityInterval s p).subscribed = s.subscribed := rfl

@[simp] lemma set_isConnected (s : EngineState) (p : Nat) :
    (setReachabilityInterval s p).isConnected = s.isConnected := rfl

@[simp] lemma clear_cfg (s : EngineState) :
    (clearReachabilityInterval s).cfg = s.cfg := by
  cases h : s.refCurrent <;> simp [clearReachabilityInterval, h]

@[simp] lemma clear_subscribed (s : EngineState) :
    (clearReachabilityInterval s).subscribed = s.subscribed := by
  cases h : s.refCurrent <;> simp [clearReachabilityInterval, h]

@[simp] lemma clear_isConnected (s : EngineState) :
    (clearReachabilityInterval s).isConnected = s.isConnected := by
  cases h : s.refCurrent <;> simp [clearReachabilityInterval, h]

lemma clear_of_none {s : EngineState} (h : s.refCurrent = none) :
    clearReachabilityInterval s = s := by
  simp [clearReachabilityInterval, h]

lemma clear_of_running {s : EngineState} (h : running s) :
    (clearReachabilityInterval s).activeTimers = []
    ∧ (clearReachabilityInterval s).refCurrent = none := by
  obtain ⟨t, ht, hr⟩ := h
  simp [clearReachabilityInterval, hr, ht, List.filter]

@[simp] lemma step_subscribed (s : EngineState) (e : Event) :
    (step s e).subscribed = s.subscribed := by
  cases e with
  | modeChange b =>
      cases hs : s.subscribed <;> simp [step, hs, backgroundHandler]
  | elapse ms => rfl
  | tick r => rfl
  | reconfigure p => simp [step]

lemma step_isConnected_of_ne {e : Event} (s : EngineState)
    (he : ∀ r, e ≠ Event.tick r) :
    (step s e).isConnected = s.isConnected := by
  cases e with
  | tick r => exact absurd rfl (he r)
  | modeChange b =>
      cases hs : s.subscribed <;> simp [step, hs, backgroundHandler]
  | elapse ms => rfl
  | reconfigure p => simp [step]

lemma running_set {s : EngineState} (p : Nat) (h : s.activeTimers = []) :
    running (setReachabilityInterval s p) :=
  ⟨⟨s.nextId, p, s.now⟩, by simp [set_activeTimers, h], rfl⟩

lemma running_step {s : EngineState} (h : running s) (e : Event) :
    running (step s e) := by
  cases e with
  | elapse ms =>
      obtain ⟨t, ht, hr⟩ := h
      exact ⟨t, ht, hr⟩
  | tick r =>
      obtain ⟨t, ht, hr⟩ := h
      exact ⟨t, ht, hr⟩
  | modeChange b =>
      cases hs : s.subscribed with
      | false => simpa [step, hs] using h
      | true =>
          have hT := (clear_of_running h).1
          simp only [step, hs, if_true, backgroundHandler]
          exact running_set _ hT
  | reconfigure p =>
      have h' : running { s with cfg := { s.cfg with interval := p } } := by
        obtain ⟨t, ht, hr⟩ := h
        exact ⟨t, ht, hr⟩
      have hT := (clear_of_running h').1
      simp only [step]
      exact running_set _ hT

lemma running_run {s : EngineState} (h : running s) (events : List Event) :
    running (run s events) := by
  induction events generalizing s with
  | nil => exact h
  | cons e es ih => exact ih (running_step h e)

lemma running_mount (c : ConnectionConfig) : running (mount c) :=
  ⟨⟨0, (resolveConfig c).interval, 0⟩, rfl, rfl⟩

lemma run_subscribed (s : EngineState) (events : List Event) :
    (run s events).subscribed = s.subscribed := by
  induction events generalizing s with
  | nil => rfl
  | cons e es ih => rw [show run s (e :: es) = run (step s e) es from rfl,
      ih (step s e), step_subscribed]

lemma isConnected_of_no_tick {events : List Event} (s : EngineState)
    (h : ∀ r, Event.tick r ∉ events) :
    (run s events).isConnected = s.isConnected := by
  induction events generalizing s with
  | nil => rfl
  | cons e es ih =>
      have he : ∀ r, e ≠ Event.tick r := by
        intro r hc
        exact h r (hc ▸ List.mem_cons_self e es)
      have hes : ∀ r, Event.tick r ∉ es := by
        intro r hc
        exact h r (List.mem_cons_of_mem e hc)
      rw [show run s (e :: es) = run (step s e) es from rfl, ih (step s e) hes,
        step_isConnected_of_ne s he]

/-! ## Claim theorems -/

/-- C1: the probe resolves exactly with the boolean `probeBool`, that boolean
is `true` if and only if the request completed before the deadline with a
status in `expectedResponseStatus` (so every other outcome — unexpected
status, transport failure, timeout — yields `false`), and a tick publishing
that boolean makes the connectivity state equal to it. -/
theorem probe_result_characterization (expected : List Nat) (timeout : Nat)
    (b : RequestBehavior) (s : EngineState) :
    (runProbe expected timeout b).result = Except.ok (probeBool expected timeout b)
    ∧ (probeBool expected timeout b = true ↔
        ∃ st, completedStatus timeout b = some st ∧ expected.contains st = true)
    ∧ (step s (Event.tick (probeBool expected timeout b))).isConnected
        = probeBool expected timeout b := by
  refine ⟨?_, ?_, rfl⟩ <;>
  · cases b with
    | completes e st =>
        by_cases h : e < timeout <;> by_cases hc : st ∈ expected <;>
          simp [runProbe, probeBool, tryBlock, fetchResult, completedStatus,
            Except.toOption, h, hc]
    | fails e msg =>
        by_cases h : e < timeout <;>
          simp [runProbe, probeBool, tryBlock, fetchResult, completedStatus,
            Except.toOption, h]
    | hangs =>
        simp [runProbe, probeBool, tryBlock, fetchResult, completedStatus,
          Except.toOption]

/-- C2: the probe never rejects: for every behavior of the underlying request
its settled value is `Except.ok` of a boolean, and whenever the try block
throws (unexpected status, transport failure, abort on timeout) the `catch`
clause collapses the failure to a resolution with `false`. -/
theorem probe_never_throws (expected : List Nat) (timeout : Nat)
    (b : RequestBehavior) :
    ((runProbe expected timeout b).result = Except.ok true
      ∨ (runProbe expected timeout b).result = Except.ok false)
    ∧ ∀ err, tryBlock expected timeout b = Except.error err →
        (runProbe expected timeout b).result = Except.ok false := by
  constructor
  · cases htb : tryBlock expected timeout b with
    | ok v => cases v <;> simp [runProbe, htb]
    | error e => simp [runProbe, htb]
  · intro err herr
    simp [runProbe, herr]

/-- Witness for C2 at a concrete timed-out probe. -/
theorem probe_never_throws_witness :
    (runProbe [204] 3000 RequestBehavior.hangs).result = Except.ok false :=
  (probe_never_throws [204] 3000 RequestBehavior.hangs).2 abortReason rfl

/-- C9: with `expectedResponseStatus = []` every probe resolves with `false`,
whatever the request does — including resolving successfully with any status,
since no status is a member of the empty list. -/
theorem empty_expected_probe_false (timeout : Nat) (b : RequestBehavior) :
    (runProbe [] timeout b).result = Except.ok false := by
  cases b with
  | completes e st =>
      by_cases h : e < timeout <;> simp [runProbe, tryBlock, fetchResult, h]
  | fails e msg =>
      by_cases h : e < timeout <;> simp [runProbe, tryBlock, fetchResult, h]
  | hangs => simp [runProbe, tryBlock, fetchResult]

/-- C10: every invocation's `finally` clause clears its abort timer on every
completion path; the probe's own abort fires exactly when the request did not
settle before the deadline (so never after the probe has resolved — the model
gives each invocation its own controller and timer, so no other invocation is
affected); and an aborted probe resolves with `false`. -/
theorem probe_cleanup_and_abort_scope (expected : List Nat) (timeout : Nat)
    (b : RequestBehavior) :
    (runProbe expected timeout b).timeoutCleared = true
    ∧ (runProbe expected timeout b).aborted = !settlesBefore timeout b
    ∧ ((runProbe expected timeout b).aborted = true →
        (runProbe expected timeout b).result = Except.ok false) := by
  refine ⟨?_, ?_, ?_⟩
  · cases htb : tryBlock expected timeout b <;> simp [runProbe, htb]
  · cases htb : tryBlock expected timeout b <;> simp [runProbe, htb]
  · intro hab
    have haux : (runProbe expected timeout b).aborted = !settlesBefore timeout b := by
      cases htb : tryBlock expected timeout b <;> simp [runProbe, htb]
    rw [haux] at hab
    cases b with
    | completes e st =>
        have h : ¬ e < timeout := by simpa [settlesBefore] using hab
        simp [runProbe, tryBlock, fetchResult, h]
    | fails e msg =>
        have h : ¬ e < timeout := by simpa [settlesBefore] using hab
        simp [runProbe, tryBlock, fetchResult, h]
    | hangs => simp [runProbe, tryBlock, fetchResult]

/-- Witness for C10 at a concrete timed-out probe. -/
theorem probe_cleanup_and_abort_scope_witness :
    (runProbe [204] 3000 RequestBehavior.hangs).timeoutCleared = true
    ∧ (runProbe [204] 3000 RequestBehavior.hangs).result = Except.ok false :=
  ⟨(probe_cleanup_and_abort_scope [204] 3000 RequestBehavior.hangs).1,
    (probe_cleanup_and_abort_scope [204] 3000 RequestBehavior.hangs).2.2 rfl⟩

/-- C6: at a request that would only complete at 5000 ms against a 3000 ms
deadline, the abort timer fires (the in-flight request is cancelled) and the
probe resolves with `false` — but nothing is logged: the fetch promise is
rejected with the signal's abort reason, the plain string passed to
`abortController.abort` at line 15, which is not an `Error` instance, so the
`console.error` call guarded by `instanceof Error` at lines 27–29 is skipped.
This contradicts the claim that a diagnostic is logged on timeout. -/
theorem timeout_probe_cancelled_false_unlogged :
    (runProbe [204] 3000 (RequestBehavior.completes 5000 204)).aborted = true
    ∧ (runProbe [204] 3000 (RequestBehavior.completes 5000 204)).result
        = Except.ok false
    ∧ (runProbe [204] 3000 (RequestBehavior.completes 5000 204)).log = [] := by
  decide

lemma foreground_invariant_step {s : EngineState} (e : Event)
    (h : running s ∧ s.subscribed = false ∧ foregroundOnly s) :
    running (step s e) ∧ (step s e).subscribed = false
    ∧ foregroundOnly (step s e) := by
  obtain ⟨hrun, hsub, hfg⟩ := h
  refine ⟨running_step hrun e, by rw [step_subscribed]; exact hsub, ?_⟩
  cases e with
  | elapse ms => exact hfg
  | tick r => exact hfg
  | modeChange b => simpa [step, hsub] using hfg
  | reconfigure p =>
      have hrun' : running { s with cfg := { s.cfg with interval := p } } := by
        obtain ⟨t, ht, hr⟩ := hrun
        exact ⟨t, ht, hr⟩
      have hT := (clear_of_running hrun').1
      intro t ht
      simp only [step, set_activeTimers, hT, List.nil_append,
        List.mem_singleton] at ht
      subst ht
      simp [step, set_cfg, clear_cfg]

lemma foreground_invariant_run {s : EngineState}
    (h : running s ∧ s.subscribed = false ∧ foregroundOnly s)
    (events : List Event) :
    foregroundOnly (run s events) := by
  induction events generalizing s with
  | nil => exact h.2.2
  | cons e es ih => exact ih (foreground_invariant_step e h)

/-- C3: from mounting on, through any sequence of ticks, background or
foreground transitions and reconfigurations, the engine holds exactly one
live timer — never zero, never two — and its handle is the one stored in the
ref, so the next arming (which always goes through
`clearReachabilityInterval` first) disposes of it. -/
theorem single_active_timer (c : ConnectionConfig) (events : List Event) :
    running (run (mount c) events)
    ∧ (run (mount c) events).activeTimers.length = 1 := by
  obtain ⟨t, ht, hr⟩ := running_run (running_mount c) events
  exact ⟨⟨t, ht, hr⟩, by rw [ht]; rfl⟩

/-- C4: for every configuration and every event sequence containing no tick
(no probe has resolved yet), the published connectivity state equals the
configured `initialConnectionState`, defaulting to `true` when the option was
not provided. -/
theorem initial_state_before_first_tick (c : ConnectionConfig)
    (events : List Event) (h : ∀ r, Event.tick r ∉ events) :
    (run (mount c) events).isConnected = c.initialConnectionState.getD true := by
  rw [isConnected_of_no_tick (mount c) h]
  rfl

/-- Witness for C4: a fresh default-configured engine after time passes and a
mode change, but before any probe resolves, publishes `true`. -/
theorem initial_state_before_first_tick_witness :
    (∀ r, Event.tick r ∉ [Event.elapse 500, Event.modeChange true])
    ∧ (run (mount {}) [Event.elapse 500, Event.modeChange true]).isConnected
        = true :=
  ⟨by decide, initial_state_before_first_tick {} _ (by decide)⟩

/-- C5: a delivered mode change first disarms the current timer and then
re-arms with `backgroundInterval` when `isOnBackground` is true and with the
foreground `interval` otherwise; and when no `backgroundSetup` adapter was
provided, the registration is never live, so for the engine's whole lifetime
every live timer runs at the foreground `interval`. -/
theorem mode_change_rearm_and_no_adapter (s : EngineState) (b : Bool)
    (c : ConnectionConfig) (events : List Event)
    (hs : s.subscribed = true) (hc : c.backgroundSetup = false) :
    step s (Event.modeChange b)
      = setReachabilityInterval (clearReachabilityInterval s)
          (if b then s.cfg.backgroundInterval else s.cfg.interval)
    ∧ (run (mount c) events).subscribed = false
    ∧ foregroundOnly (run (mount c) events) := by
  have hm : (mount c).subscribed = false := by
    simpa [mount, resolveConfig] using hc
  refine ⟨by simp [step, hs, backgroundHandler], ?_, ?_⟩
  · rw [run_subscribed]
    exact hm
  · refine foreground_invariant_run ⟨running_mount c, hm, ?_⟩ events
    intro t ht
    simp only [mount, set_activeTimers, List.nil_append, List.mem_singleton] at ht
    subst ht
    rfl

/-- Witness for C5: a background transition on an engine whose adapter is
registered, and a default (adapter-free) engine run through a reconfiguration
and a tick. -/
theorem mode_change_rearm_and_no_adapter_witness :
    (mount { backgroundSetup := true } : EngineState).subscribed = true
    ∧ step (mount { backgroundSetup := true }) (Event.modeChange true)
        = setReachabilityInterval
            (clearReachabilityInterval (mount { backgroundSetup := true }))
            (if true then (mount { backgroundSetup := true }).cfg.backgroundInterval
              else (mount { backgroundSetup := true }).cfg.interval)
    ∧ (run (mount {}) [Event.reconfigure 2000, Event.tick false]).subscribed = false
    ∧ foregroundOnly (run (mount {}) [Event.reconfigure 2000, Event.tick false]) :=
  ⟨rfl,
    (mode_change_rearm_and_no_adapter (mount { backgroundSetup := true }) true {}
      [Event.reconfigure 2000, Event.tick false] rfl rfl).1,
    (mode_change_rearm_and_no_adapter (mount { backgroundSetup := true }) true {}
      [Event.reconfigure 2000, Event.tick false] rfl rfl).2.1,
    (mode_change_rearm_and_no_adapter (mount { backgroundSetup := true }) true {}
      [Event.reconfigure 2000, Event.tick false] rfl rfl).2.2⟩

/-- C7: arming via `setReachabilityInterval` creates a recurring timer with
the requested period whose ticks fire at `armedAt + (k+1) * period`: the
first tick comes strictly after arming, a full period later, and each
subsequent tick one period after the previous one. -/
theorem arm_tick_schedule (s : EngineState) (p : Nat) (hp : 0 < p) :
    ∃ t : Timer,
      (setReachabilityInterval s p).refCurrent = some t.id
      ∧ t ∈ (setReachabilityInterval s p).activeTimers
      ∧ t.period = p
      ∧ t.armedAt = s.now
      ∧ intervalFireTime t 0 = s.now + p
      ∧ s.now < intervalFireTime t 0
      ∧ (∀ k, intervalFireTime t (k + 1) = intervalFireTime t k + p) := by
  refine ⟨⟨s.nextId, p, s.now⟩, rfl, ?_, rfl, rfl, ?_, ?_, ?_⟩
  · simp [set_activeTimers]
  · simp [intervalFireTime]
  · simp only [intervalFireTime]
    omega
  · intro k
    simp only [intervalFireTime]
    ring

/-- Witness for C7 on a freshly mounted default engine with period 5. -/
theorem arm_tick_schedule_witness :
    0 < 5
    ∧ ∃ t : Timer,
        (setReachabilityInterval (mount {}) 5).refCurrent = some t.id
        ∧ t ∈ (setReachabilityInterval (mount {}) 5).activeTimers
        ∧ t.period = 5
        ∧ t.armedAt = (mount {}).now
        ∧ intervalFireTime t 0 = (mount {}).now + 5
        ∧ (mount {}).now < intervalFireTime t 0
        ∧ (∀ k, intervalFireTime t (k + 1) = intervalFireTime t k + 5) :=
  ⟨by decide, arm_tick_schedule (mount {}) 5 (by decide)⟩

/-- C8: unmounting a running engine empties the set of live timers and ends
the adapter registration; unmounting again changes nothing; and clearing when
the ref holds no handle is a no-op, so repeated shutdown is safe. -/
theorem shutdown_idempotent (s s' : EngineState)
    (hs : running s) (h' : s'.refCurrent = none) :
    (unmount s).activeTimers = []
    ∧ (unmount s).subscribed = false
    ∧ unmount (unmount s) = unmount s
    ∧ clearReachabilityInterval s' = s' := by
  refine ⟨(clear_of_running hs).1, rfl, ?_, clear_of_none h'⟩
  cases hr : s.refCurrent <;>
    simp [unmount, clearReachabilityInterval, hr]

/-- Witness for C8 on a freshly mounted default engine. -/
theorem shutdown_idempotent_witness :
    (unmount (mount {})).activeTimers = []
    ∧ (unmount (mount {})).subscribed = false
    ∧ unmount (unmount (mount {})) = unmount (mount {})
    ∧ clearReachabilityInterval (unmount (mount {})) = unmount (mount {}) :=
  shutdown_idempotent (mount {}) (unmount (mount {}))
    ⟨⟨0, 1000, 0⟩, rfl, rfl⟩ rfl

end URC
